import Mathlib

/-!
Verification of the attendance tracking core of `the_church_manager_api`.

The embedding translates `app/api/v1/services/attendance_service.py`
(`AttendanceService`, a pymongo-backed service) together with the pieces of
`app/api/v1/routes/attendance.py` that implement duplicate pre-checks and
filter validation.  Conventions:

* A MongoDB `ObjectId` is modelled by its canonical string form: 24 lowercase
  hex characters.  `bson.ObjectId` accepts a 24 character hex string of either
  case (`ObjectId.is_valid`), stores 12 bytes, and prints back as lowercase
  hex; `parseOid` models the constructor, `strToLower` the normalisation.
* The `attendance` collection is a list of `AttendanceDoc`; the `users`,
  `events` and `meetings` collections are only consulted for existence, so
  they are lists of ids.  Mongo generates fresh `_id`s on insert; the store
  carries a counter (`nextId`) from which fresh canonical ids are minted.
* `datetime` values are modelled at calendar-day granularity (`Datetime`,
  ordered lexicographically); no claim depends on the time of day.
* Python `float` percentages are idealised as exact rationals; `round(x, 2)`
  is modelled by round-half-to-even at two decimals (`round2`).
* Errors raised by the code (`ValueError`s in the service, `HTTPException`s
  in the routes) are modelled by `ApiError`; each constructor is tagged with
  the concrete raise it translates.
-/

/-- Characters accepted by `bson.ObjectId` in a hex string. -/
def isHexChar (c : Char) : Bool :=
  c.isDigit || (('a' ≤ c) && (c ≤ 'f')) || (('A' ≤ c) && (c ≤ 'F'))

/-- Model of `bson.ObjectId.is_valid` on strings: 24 hex characters. -/
def oidIsValid (s : String) : Bool :=
  s.length == 24 && s.data.all isHexChar

/-- Lowercasing, as applied by `ObjectId` when normalising hex input. -/
def strToLower (s : String) : String :=
  ⟨s.data.map Char.toLower⟩

/-- Model of the `ObjectId(str)` constructor: `none` means the constructor
raises (`InvalidId`); `some` returns the canonical lowercase form. -/
def parseOid (s : String) : Option String :=
  if oidIsValid s then some (strToLower s) else none

/-- Calendar date of a `datetime` value (time of day elided). -/
structure Datetime where
  year : Nat
  month : Nat
  day : Nat
deriving DecidableEq, Repr

/-- Chronological order on `Datetime`, as Mongo compares `created_at`. -/
def Datetime.le (a b : Datetime) : Bool :=
  (a.year < b.year) ||
    (a.year == b.year &&
      ((a.month < b.month) || (a.month == b.month && a.day ≤ b.day)))

/-- One document of the `attendance` collection. -/
structure AttendanceDoc where
  id : String
  user_id : String
  parent_id : String
  parent_type : String
  status : String
  notes : Option String
  question_id : Option String
  submitted_by : String
  organization_id : Option String
  created_at : Datetime
  updated_at : Datetime
deriving DecidableEq, Repr

/-- The backing MongoDB database: the `attendance` collection plus the id
sets of the `users`, `events` and `meetings` collections, and the state of
Mongo's `ObjectId` generator. -/
structure Store where
  attendance : List AttendanceDoc
  users : List String
  events : List String
  meetings : List String
  nextId : Nat
deriving DecidableEq, Repr

/-- Fresh canonical `_id` minted by Mongo on insert. -/
def freshOid (n : Nat) : String :=
  let s : List Char := Nat.toDigits 16 n
  ⟨List.replicate (24 - s.length) '0' ++ s⟩

/-- Error kinds surfaced by the attendance operations.  Each constructor
names the concrete raise it translates:
* `conflict` — `HTTPException(400, "Attendance record already exists for
  this user and parent")` in the create route (the spec's `Conflict` kind);
* `notFound` — `ValueError("User/Event/Meeting not found ...")` in the
  service;
* `invalidArgument` — `ValueError` for malformed ids / bad enum values and
  `HTTPException(400, ...)` for invalid filters or an empty bulk batch. -/
inductive ApiError where
  | conflict : ApiError
  | notFound : String → ApiError
  | invalidArgument : String → ApiError
deriving DecidableEq, Repr

instance {ε α : Type} [DecidableEq ε] [DecidableEq α] :
    DecidableEq (Except ε α) := fun a b =>
  match a, b with
  | .ok x, .ok y =>
      if h : x = y then isTrue (by rw [h])
      else isFalse (by intro hc; cases hc; exact h rfl)
  | .error x, .error y =>
      if h : x = y then isTrue (by rw [h])
      else isFalse (by intro hc; cases hc; exact h rfl)
  | .ok _, .error _ => isFalse (by intro hc; cases hc)
  | .error _, .ok _ => isFalse (by intro hc; cases hc)

/-- Input of `create` (`AttendanceCreate` of `app/api/v1/schemas/attendance.py`
as consumed by `AttendanceService.create_attendance`); `status = none` models
a payload in which `status` was not set, which the service defaults. -/
structure AttendanceCreate where
  user_id : String
  parent_id : String
  parent_type : String
  status : Option String
  notes : Option String
  question_id : Option String
deriving DecidableEq, Repr

/-- `AttendanceService.get_attendance_by_id`: parse the id (invalid format
returns `None`), then `find_one` on `_id`. -/
def get_attendance_by_id (attendance_id : String) (s : Store) :
    Option AttendanceDoc :=
  match parseOid attendance_id with
  | none => none
  | some c => s.attendance.find? (fun r => r.id == c)

/-- `AttendanceService.get_attendance_by_user_and_parent`: parse both ids
(invalid format returns `None`), then `find_one` on the dedup tuple. -/
def get_attendance_by_user_and_parent (user_id parent_id parent_type : String)
    (s : Store) : Option AttendanceDoc :=
  match parseOid user_id, parseOid parent_id with
  | some u, some p =>
      s.attendance.find?
        (fun r => r.user_id == u && r.parent_id == p &&
          r.parent_type == parent_type)
  | _, _ => none

/-- `AttendanceService.create_attendance`: validate id formats, resolve the
user, dispatch parent resolution on `parent_type`, then `insert_one` with
`created_at = updated_at = now` and `status` defaulted to `"present"`. -/
def create_attendance (inp : AttendanceCreate) (submitted_by : String)
    (now : Datetime) (s : Store) : Except ApiError AttendanceDoc × Store :=
  match parseOid inp.user_id, parseOid inp.parent_id with
  | some u, some p =>
      if !(s.users.contains u) then
        (.error (.notFound "User not found"), s)
      else if inp.parent_type == "event" then
        if !(s.events.contains p) then (.error (.notFound "Event not found"), s)
        else insertNew u p
      else if inp.parent_type == "meeting" then
        if !(s.meetings.contains p) then
          (.error (.notFound "Meeting not found"), s)
        else insertNew u p
      else (.error (.invalidArgument "Invalid parent_type"), s)
  | _, _ => (.error (.invalidArgument "Invalid user_id or parent_id format"), s)
where
  insertNew (u p : String) : Except ApiError AttendanceDoc × Store :=
    let doc : AttendanceDoc :=
      { id := freshOid s.nextId
        user_id := u
        parent_id := p
        parent_type := inp.parent_type
        status := inp.status.getD "present"
        notes := inp.notes
        question_id := inp.question_id
        submitted_by := submitted_by
        organization_id := none
        created_at := now
        updated_at := now }
    (.ok doc, { s with attendance := s.attendance ++ [doc],
                       nextId := s.nextId + 1 })

/-- The POST route `create_attendance` of `app/api/v1/routes/attendance.py`:
a duplicate pre-check on the `(userId, parentId, parentType)` tuple (raising
the duplicate-tuple error, modelled `ApiError.conflict`) before delegating to
the service. -/
def create_attendance_route (inp : AttendanceCreate) (submitted_by : String)
    (now : Datetime) (s : Store) : Except ApiError AttendanceDoc × Store :=
  match get_attendance_by_user_and_parent inp.user_id inp.parent_id
      inp.parent_type s with
  | some _ => (.error .conflict, s)
  | none => create_attendance inp submitted_by now s

/-- Mongo `delete_one`: remove the first document matching the predicate. -/
def deleteFirst (c : String) : List AttendanceDoc → List AttendanceDoc
  | [] => []
  | r :: t => if r.id == c then t else r :: deleteFirst c t

/-- `AttendanceService.delete_attendance`: parse the id (invalid format
returns `False`), `delete_one` on `_id`, `False` when nothing matched. -/
def delete_attendance (attendance_id : String) (s : Store) : Bool × Store :=
  match parseOid attendance_id with
  | none => (false, s)
  | some c =>
      match s.attendance.find? (fun r => r.id == c) with
      | none => (false, s)
      | some _ => (true, { s with attendance := deleteFirst c s.attendance })

/-- Update payload (`model_dump(exclude_unset=True)` of the request body):
`none` marks a field that was not set.  The identity fields are present so
that the service's defensive deletion of `user_id`, `parent_id`,
`parent_type` and `created_at` from the update document is observable. -/
structure AttendanceUpdate where
  status : Option String
  notes : Option String
  question_id : Option String
  user_id : Option String
  parent_id : Option String
  parent_type : Option String
  created_at : Option Datetime
deriving DecidableEq, Repr

/-- Test for an empty `update_data` dictionary. -/
def AttendanceUpdate.isEmpty (u : AttendanceUpdate) : Bool :=
  u.status.isNone && u.notes.isNone && u.question_id.isNone &&
    u.user_id.isNone && u.parent_id.isNone && u.parent_type.isNone &&
    u.created_at.isNone

/-- Mongo `$set` of the update document after `updated_at` was added and the
immutable keys `user_id`, `parent_id`, `parent_type`, `created_at` were
deleted by the service. -/
def applySet (u : AttendanceUpdate) (now : Datetime) (r : AttendanceDoc) :
    AttendanceDoc :=
  { r with
    status := u.status.getD r.status
    notes := match u.notes with | some v => some v | none => r.notes
    question_id :=
      match u.question_id with | some v => some v | none => r.question_id
    updated_at := now }

/-- Mongo `update_one`: apply the mutation to the first matching document. -/
def setFirst (c : String) (f : AttendanceDoc → AttendanceDoc) :
    List AttendanceDoc → List AttendanceDoc
  | [] => []
  | r :: t => if r.id == c then f r :: t else r :: setFirst c f t

/-- `AttendanceService.update_attendance`: parse the id (invalid format
returns `None`); an empty update document short-circuits to a read;
otherwise `updated_at` is stamped, the immutable keys are stripped, and
`update_one` runs; `None` when no document matched. -/
def update_attendance (attendance_id : String) (upd : AttendanceUpdate)
    (now : Datetime) (s : Store) : Option AttendanceDoc × Store :=
  match parseOid attendance_id with
  | none => (none, s)
  | some c =>
      if upd.isEmpty then (get_attendance_by_id attendance_id s, s)
      else
        match s.attendance.find? (fun r => r.id == c) with
        | none => (none, s)
        | some _ =>
            let att := setFirst c (applySet upd now) s.attendance
            (att.find? (fun r => r.id == c), { s with attendance := att })

/-- Python truthiness of an optional string parameter: `None` and the empty
string are both falsy (`if value:` guards in the routes and the service). -/
def truthy (o : Option String) : Option String :=
  match o with
  | some v => if v == "" then none else some v
  | none => none

/-- Date-range clause on `created_at` (`$gte`/`$lte`). -/
def createdInRange (start_date end_date : Option Datetime)
    (r : AttendanceDoc) : Bool :=
  (match start_date with
   | some sd => Datetime.le sd r.created_at
   | none => true) &&
  (match end_date with
   | some ed => Datetime.le r.created_at ed
   | none => true)

/-- Outcome of `ObjectId(x)` applied to an optional filter: the outer `none`
is the raised `InvalidId`, the inner layer is the optional filter itself. -/
def parseOptOid : Option String → Option (Option String)
  | none => some none
  | some v =>
      match parseOid v with
      | none => none
      | some u => some (some u)

/-- `AttendanceService.list_attendance`: build the query (invalid id formats
short-circuit to an empty result), `find`, sort by `created_at` descending,
then paginate with `skip`/`limit`. -/
def list_attendance (skip limit : Nat)
    (user_id parent_id parent_type status : Option String)
    (start_date end_date : Option Datetime) (s : Store) :
    List AttendanceDoc :=
  match parseOptOid user_id, parseOptOid parent_id with
  | some uo, some po =>
      let q : AttendanceDoc → Bool := fun r =>
        (match uo with | some u => r.user_id == u | none => true) &&
        (match po with | some p => r.parent_id == p | none => true) &&
        (match parent_type with | some pt => r.parent_type == pt | none => true) &&
        (match status with | some st => r.status == st | none => true) &&
        createdInRange start_date end_date r
      let sorted := List.insertionSort
        (fun a b => Datetime.le b.created_at a.created_at = true)
        (s.attendance.filter q)
      (sorted.drop skip).take limit
  | _, _ => []

/-- The GET route `list_attendance` of `app/api/v1/routes/attendance.py`:
validates non-empty `parent_type` against `{event, meeting}` and non-empty
`status` against the `AttendanceStatus` values (each failure raising
`HTTPException(400, ...)`, the spec's `InvalidArgument`), builds the filter
dictionary under Python truthiness, and delegates to the service.  The
caller-identity narrowing of `user_id` is boundary authorization, excluded
from the core. -/
def list_attendance_route (user_id parent_id parent_type status : Option String)
    (start_date end_date : Option Datetime) (skip limit : Nat) (s : Store) :
    Except ApiError (List AttendanceDoc) × Store :=
  if (truthy parent_type).any
      (fun pt => !(pt == "event" || pt == "meeting")) then
    (.error (.invalidArgument "Invalid parent_type. Must be event or meeting"),
      s)
  else if (truthy status).any
      (fun st => !(st == "present" || st == "absent" || st == "late" ||
        st == "excused")) then
    (.error (.invalidArgument
      "Invalid status. Must be one of: present, absent, late, excused"), s)
  else
    (.ok (list_attendance skip limit (truthy user_id) (truthy parent_id)
      (truthy parent_type) (truthy status) start_date end_date s), s)

/-- Round-half-to-even to an integer, the idealisation over `ℚ` of Python's
banker's rounding. -/
def roundHalfEven (q : ℚ) : ℤ :=
  let n := ⌊q⌋
  let r := q - n
  if r < 1/2 then n
  else if 1/2 < r then n + 1
  else if n % 2 = 0 then n else n + 1

/-- Model of Python `round(x, 2)`. -/
def round2 (q : ℚ) : ℚ :=
  (roundHalfEven (q * 100) : ℚ) / 100

/-- Result shape of `get_attendance_stats`. -/
structure AttendanceStats where
  total : Nat
  present : Nat
  absent : Nat
  late : Nat
  excused : Nat
  percentage : ℚ
deriving DecidableEq, Repr

/-- Aggregation core shared by the stats pipeline: `count_documents` plus the
`$group`-by-`status` counts over one query, and the guarded percentage
`round((present / total * 100) if total > 0 else 0.0, 2)`. -/
def statsOf (q : AttendanceDoc → Bool) (s : Store) : AttendanceStats :=
  let docs := s.attendance.filter q
  let total := docs.length
  let pres := docs.countP (fun r => r.status == "present")
  { total := total
    present := pres
    absent := docs.countP (fun r => r.status == "absent")
    late := docs.countP (fun r => r.status == "late")
    excused := docs.countP (fun r => r.status == "excused")
    percentage := round2 (if 0 < total then (pres : ℚ) / total * 100 else 0) }

/-- `AttendanceService.get_attendance_stats`: the parent clause applies only
when both `parent_id` and `parent_type` are truthy; an invalid `parent_id`
format returns all-zero stats. -/
def get_attendance_stats (parent_id parent_type : Option String)
    (start_date end_date : Option Datetime) (s : Store) : AttendanceStats :=
  match truthy parent_id, truthy parent_type with
  | some pid, some pt =>
      match parseOid pid with
      | none =>
          { total := 0, present := 0, absent := 0, late := 0, excused := 0,
            percentage := 0 }
      | some p =>
          statsOf (fun r => r.parent_id == p && r.parent_type == pt &&
            createdInRange start_date end_date r) s
  | _, _ => statsOf (createdInRange start_date end_date) s

/-- Gregorian leap-year test. -/
def isLeap (y : Nat) : Bool :=
  y % 4 == 0 && (y % 100 != 0 || y % 400 == 0)

/-- Days in the months preceding month `m` (1-based) of year `y`. -/
def daysBeforeMonth (y m : Nat) : Nat :=
  let tbl : List Nat := [0, 31, 59, 90, 120, 151, 181, 212, 243, 273, 304, 334]
  (tbl.getD (m - 1) 0) + (if 2 < m && isLeap y then 1 else 0)

/-- Zero-based day of the year of a date. -/
def dayOfYear0 (d : Datetime) : Nat :=
  daysBeforeMonth d.year d.month + d.day - 1

/-- Days elapsed since 0000-03-01 (the civil-from-days epoch). -/
def daysFromCivil (dt : Datetime) : Nat :=
  let yr := if dt.month ≤ 2 then dt.year - 1 else dt.year
  let mp := if dt.month ≤ 2 then dt.month + 9 else dt.month - 3
  let era := yr / 400
  let yoe := yr % 400
  let doy := (153 * mp + 2) / 5 + dt.day - 1
  let doe := yoe * 365 + yoe / 4 - yoe / 100 + doy
  era * 146097 + doe

/-- Day of the week with Sunday = 0 (0000-03-01 was a Wednesday). -/
def weekdaySun0 (dt : Datetime) : Nat :=
  (daysFromCivil dt + 3) % 7

/-- The `%U` week-of-year number (weeks start on Sunday; days before the
first Sunday of the year fall in week 0), as produced by `$dateToString`. -/
def weekOfYearU (dt : Datetime) : Nat :=
  (dayOfYear0 dt + 7 - weekdaySun0 dt) / 7

/-- Decimal rendering of a natural number padded with zeros to width `w`. -/
def padZeros (w n : Nat) : String :=
  let s : List Char := Nat.toDigits 10 n
  ⟨List.replicate (w - s.length) '0' ++ s⟩

/-- The `$dateToString` bucket key of a date under a group format:
`%Y-%m-%d` (daily), `%Y-%U` (weekly) or `%Y-%m` (monthly). -/
def dateKey (period : String) (d : Datetime) : String :=
  if period == "daily" then
    padZeros 4 d.year ++ "-" ++ padZeros 2 d.month ++ "-" ++ padZeros 2 d.day
  else if period == "weekly" then
    padZeros 4 d.year ++ "-" ++ padZeros 2 (weekOfYearU d)
  else
    padZeros 4 d.year ++ "-" ++ padZeros 2 d.month

/-- Byte-wise lexicographic string order, as Mongo's ascending `$sort` on the
group `_id` compares string keys.  Boolean so that concrete runs reduce. -/
def strLeB (a b : String) : Bool :=
  go a.data b.data
where
  go : List Char → List Char → Bool
  | [], _ => true
  | _ :: _, [] => false
  | x :: xs, y :: ys => if x = y then go xs ys else decide (x < y)

/-- Result shape of `get_attendance_summary` (`AttendanceSummaryItem`). -/
structure AttendanceSummaryItem where
  period : String
  total : Nat
  present : Nat
  absent : Nat
  late : Nat
  excused : Nat
  percentage : ℚ
deriving DecidableEq, Repr

/-- The `$match` query of the summary pipeline: truthy `parent_type` filter
plus the `created_at` range. -/
def summaryQuery (parent_type_filter : Option String)
    (start_date end_date : Option Datetime) (r : AttendanceDoc) : Bool :=
  (match truthy parent_type_filter with
   | some pt => r.parent_type == pt
   | none => true) && createdInRange start_date end_date r

/-- One group of the summary pipeline: the `$group` conditional sums over
the documents of bucket `k`, plus the rounded percentage computed in the
Python loop. -/
def summaryItem (docs : List AttendanceDoc) (period : String) (k : String) :
    AttendanceSummaryItem :=
  let grp := docs.filter (fun r => dateKey period r.created_at == k)
  let total := grp.length
  let pres := grp.countP (fun r => r.status == "present")
  { period := k
    total := total
    present := pres
    absent := grp.countP (fun r => r.status == "absent")
    late := grp.countP (fun r => r.status == "late")
    excused := grp.countP (fun r => r.status == "excused")
    percentage := round2 (if 0 < total then (pres : ℚ) / total * 100 else 0) }

/-- `AttendanceService.get_attendance_summary`: validate the period (a bad
value raises `ValueError`), filter by truthy `parent_type` and the date
range, `$group` on the `$dateToString` key with per-status conditional sums,
`$sort` the bucket keys ascending, and attach the rounded percentage. -/
def get_attendance_summary (parent_type_filter : Option String)
    (start_date end_date : Option Datetime) (period : String) (s : Store) :
    Except ApiError (List AttendanceSummaryItem) :=
  if !(period == "daily" || period == "weekly" || period == "monthly") then
    .error (.invalidArgument "Period must be daily, weekly, or monthly")
  else
    let docs := s.attendance.filter
      (summaryQuery parent_type_filter start_date end_date)
    let keys := (docs.map (fun r => dateKey period r.created_at)).dedup
    let sorted := List.insertionSort (fun a b => strLeB a b = true) keys
    .ok (sorted.map (summaryItem docs period))

/-- `AttendanceService.get_not_attended_users`: empty expectation list short
circuits; an unparseable `parent_id` returns the whole expectation list; the
attended set is the `user_id`s (as canonical strings) of `present` documents
against the parent among the parseable expected ids, and the result keeps
every expected id string that is not in that set. -/
def get_not_attended_users (parent_id parent_type : String)
    (expected_user_ids : List String) (s : Store) : List String :=
  if expected_user_ids.isEmpty then []
  else
    match parseOid parent_id with
    | none => expected_user_ids
    | some p =>
        let expectedOids := expected_user_ids.filterMap parseOid
        let attended := (s.attendance.filter (fun r =>
          r.parent_id == p && r.parent_type == parent_type &&
            expectedOids.contains r.user_id && r.status == "present")).map
          (fun r => r.user_id)
        expected_user_ids.filter (fun uid => !(attended.contains uid))

/-- One item of a bulk request (`BulkAttendanceItem` of the schema; `status`
is required there, and is already a plain value string on arrival). -/
structure BulkAttendanceItem where
  user_id : String
  status : String
  notes : Option String
  question_id : Option String
deriving DecidableEq, Repr

/-- Body of the bulk route (`BulkAttendanceCreate` of the schema). -/
structure BulkAttendanceCreate where
  items : List BulkAttendanceItem
  parent_id : String
  parent_type : String
  organization_id : String
deriving DecidableEq, Repr

/-- One prepared document handed by the bulk route to the service. -/
structure PreparedAttendance where
  user_id : String
  parent_id : String
  parent_type : String
  status : String
  notes : Option String
  question_id : Option String
  submitted_by : String
  organization_id : String
deriving DecidableEq, Repr

/-- Mongo `insert_many` (`ordered=False`, no uniqueness constraint exists on
the collection, so every document is written): each document receives a
fresh generated `_id`; returns the inserted documents, as the service reads
them back by `_id`. -/
def insertMany (docs : List AttendanceDoc) (s : Store) :
    List AttendanceDoc × Store :=
  match docs with
  | [] => ([], s)
  | d :: t =>
      let d' := { d with id := freshOid s.nextId }
      let res := insertMany t
        { s with attendance := s.attendance ++ [d'], nextId := s.nextId + 1 }
      (d' :: res.1, res.2)

/-- `AttendanceService.bulk_create_attendance`: items with unparseable ids
are skipped (logged); the rest are stamped `created_at = updated_at = now`
and written by `insert_many`; an empty remainder returns the empty list.
The `_id` field is assigned by `insertMany`. -/
def bulk_create_attendance (docsIn : List PreparedAttendance) (now : Datetime)
    (s : Store) : List AttendanceDoc × Store :=
  let docs := docsIn.filterMap (fun d =>
    match parseOid d.user_id, parseOid d.parent_id with
    | some u, some p =>
        some ({ id := ""
                user_id := u
                parent_id := p
                parent_type := d.parent_type
                status := d.status
                notes := d.notes
                question_id := d.question_id
                submitted_by := d.submitted_by
                organization_id := some d.organization_id
                created_at := now
                updated_at := now } : AttendanceDoc)
    | _, _ => none)
  if docs.isEmpty then ([], s) else insertMany docs s

/-- The POST route `bulk_create_attendance` of
`app/api/v1/routes/attendance.py`: the schema validator constrains
`parent_type`; each item is checked against the store for an existing
`(userId, parentId, parentType)` document and duplicates are skipped and
logged; an all-skipped batch raises
`HTTPException(400, "No valid attendance records to create")`; the rest is
handed to the service and the inserted documents are returned.  The
per-item admin permission check is boundary authorization, excluded from
the core. -/
def bulk_create_attendance_route (bulk : BulkAttendanceCreate)
    (submitted_by : String) (now : Datetime) (s : Store) :
    Except ApiError (List AttendanceDoc) × Store :=
  if !(bulk.parent_type == "event" || bulk.parent_type == "meeting") then
    (.error (.invalidArgument "parent_type must be either event or meeting"),
      s)
  else
    let prepared := bulk.items.filterMap (fun it =>
      match get_attendance_by_user_and_parent it.user_id bulk.parent_id
          bulk.parent_type s with
      | some _ => none
      | none =>
          some ({ user_id := it.user_id
                  parent_id := bulk.parent_id
                  parent_type := bulk.parent_type
                  status := it.status
                  notes := it.notes
                  question_id := it.question_id
                  submitted_by := submitted_by
                  organization_id := bulk.organization_id } :
            PreparedAttendance))
    if prepared.isEmpty then
      (.error (.invalidArgument "No valid attendance records to create"), s)
    else
      let (recs, s') := bulk_create_attendance prepared now s
      (.ok recs, s')

/-- Projection of an attendance document onto everything an update is not
allowed to change: the primary key, the identity tuple, the recorder, the
organization and the creation timestamp. -/
def updateFrame (r : AttendanceDoc) :
    String × String × String × String × String × Option String × Datetime :=
  (r.id, r.user_id, r.parent_id, r.parent_type, r.submitted_by,
    r.organization_id, r.created_at)

theorem setFirst_map_updateFrame (c : String) (upd : AttendanceUpdate)
    (now : Datetime) :
    ∀ l : List AttendanceDoc,
      (setFirst c (applySet upd now) l).map updateFrame = l.map updateFrame := by
  intro l
  induction l with
  | nil => rfl
  | cons r t ih =>
      by_cases h : (r.id == c) = true
      · simp [setFirst, h, applySet, updateFrame]
      · simp [setFirst, h, ih]

/-- C8: an update (successful or not) never changes the stored identity
fields `user_id`, `parent_id`, `parent_type`, the recorder, the organization
or `created_at` of any document, never changes any `_id`, and never adds or
removes documents — even when the update payload supplies values for the
identity fields, which the service strips before `$set`. -/
theorem update_attendance_frame (attendance_id : String)
    (upd : AttendanceUpdate) (now : Datetime) (s : Store) :
    ((update_attendance attendance_id upd now s).2).attendance.map updateFrame
      = s.attendance.map updateFrame := by
  unfold update_attendance
  cases hp : parseOid attendance_id with
  | none => rfl
  | some c =>
      by_cases he : upd.isEmpty = true
      · simp [he]
      · cases hf : s.attendance.find? (fun r => r.id == c) with
        | none => simp [he, hf]
        | some r => simp [he, hf, setFirst_map_updateFrame]

/-- C9: `get_not_attended_users` with an empty expectation list returns the
empty list before any store access, so the result is the same for every
store. -/
theorem not_attended_empty_expected (parent_id parent_type : String)
    (s₁ s₂ : Store) :
    get_not_attended_users parent_id parent_type [] s₁ = [] ∧
    get_not_attended_users parent_id parent_type [] s₁ =
      get_not_attended_users parent_id parent_type [] s₂ := by
  constructor <;> rfl

theorem deleteFirst_eq_filter (c : String) :
    ∀ l : List AttendanceDoc, (l.map (fun r => r.id)).Nodup →
      deleteFirst c l = l.filter (fun r => !(r.id == c)) := by
  intro l
  induction l with
  | nil => intro _; rfl
  | cons r t ih =>
      intro hnd
      rw [List.map_cons, List.nodup_cons] at hnd
      by_cases h : (r.id == c) = true
      · have hc : r.id = c := by simpa using h
        have hall : ∀ x ∈ t, (!(x.id == c)) = true := by
          intro x hx
          have : x.id ≠ c := by
            intro hxc
            exact hnd.1 (List.mem_map.mpr ⟨x, hx, by rw [hxc, hc]⟩)
          simp [this]
        simp [deleteFirst, h, List.filter_cons, List.filter_eq_self.mpr hall]
      · simp [deleteFirst, h, List.filter_cons, ih hnd.2]

/-- C10: deletion is a hard delete.  Under Mongo's always-enforced
uniqueness of `_id`, a successful `delete_attendance` removes the matching
document outright — the resulting store is the original one with every
document of that `_id` gone, so a subsequent `get_attendance_by_id` returns
`none` (and every stats / summary / not-attended computation runs on the
smaller store); an unsuccessful delete (no match, or a malformed id) returns
`false` and leaves the store untouched. -/
theorem delete_attendance_hard_delete (attendance_id : String) (s : Store)
    (hids : (s.attendance.map (fun r => r.id)).Nodup) :
    ((delete_attendance attendance_id s).1 = true →
      get_attendance_by_id attendance_id (delete_attendance attendance_id s).2
          = none ∧
      ∃ c, parseOid attendance_id = some c ∧
        (delete_attendance attendance_id s).2 =
          { s with attendance :=
              s.attendance.filter (fun r => !(r.id == c)) }) ∧
    ((delete_attendance attendance_id s).1 = false →
      (delete_attendance attendance_id s).2 = s) := by
  rcases hp : parseOid attendance_id with _ | c
  · have hres : delete_attendance attendance_id s = (false, s) := by
      unfold delete_attendance; simp only [hp]
    rw [hres]
    exact ⟨fun h => by simp at h, fun _ => rfl⟩
  · rcases hf : s.attendance.find? (fun r => r.id == c) with _ | r
    · have hres : delete_attendance attendance_id s = (false, s) := by
        unfold delete_attendance; simp only [hp, hf]
      rw [hres]
      exact ⟨fun h => by simp at h, fun _ => rfl⟩
    · have hres : delete_attendance attendance_id s =
          (true, { s with attendance := deleteFirst c s.attendance }) := by
        unfold delete_attendance; simp only [hp, hf]
      rw [hres]
      refine ⟨fun _ => ⟨?_, c, rfl, ?_⟩, fun h => by simp at h⟩
      · unfold get_attendance_by_id
        simp only [hp, deleteFirst_eq_filter c s.attendance hids]
        apply List.find?_eq_none.mpr
        intro x hx
        have := (List.mem_filter.mp hx).2
        simpa using this
      · simp [deleteFirst_eq_filter c s.attendance hids]

/-- Store and id used to exercise the hard-delete theorem. -/
def delExampleStore : Store :=
  { attendance := [
      { id := "00000000000000000000000a"
        user_id := "aaaaaaaaaaaaaaaaaaaaaaaa"
        parent_id := "bbbbbbbbbbbbbbbbbbbbbbbb"
        parent_type := "event"
        status := "present"
        notes := none
        question_id := none
        submitted_by := "cccccccccccccccccccccccc"
        organization_id := none
        created_at := ⟨2023, 1, 5⟩
        updated_at := ⟨2023, 1, 5⟩ }]
    users := ["aaaaaaaaaaaaaaaaaaaaaaaa"]
    events := ["bbbbbbbbbbbbbbbbbbbbbbbb"]
    meetings := []
    nextId := 1 }

theorem delete_attendance_hard_delete_witness :
    (delExampleStore.attendance.map (fun r => r.id)).Nodup ∧
    ((delete_attendance "00000000000000000000000a" delExampleStore).1 = true →
      get_attendance_by_id "00000000000000000000000a"
          (delete_attendance "00000000000000000000000a" delExampleStore).2
        = none ∧
      ∃ c, parseOid "00000000000000000000000a" = some c ∧
        (delete_attendance "00000000000000000000000a" delExampleStore).2 =
          { delExampleStore with attendance :=
              delExampleStore.attendance.filter (fun r => !(r.id == c)) }) ∧
    (delete_attendance "00000000000000000000000a" delExampleStore).1 = true :=
  ⟨by decide,
   (delete_attendance_hard_delete "00000000000000000000000a" delExampleStore
      (by decide)).1,
   by decide⟩

theorem create_attendance_ok_shape (inp : AttendanceCreate) (sb : String)
    (now : Datetime) (s : Store) (r : AttendanceDoc) (s' : Store)
    (h : create_attendance inp sb now s = (.ok r, s')) :
    ∃ u p, parseOid inp.user_id = some u ∧ parseOid inp.parent_id = some p ∧
      r.user_id = u ∧ r.parent_id = p ∧ r.parent_type = inp.parent_type ∧
      s'.attendance = s.attendance ++ [r] := by
  unfold create_attendance at h
  split at h
  next u p hu hp =>
    refine ⟨u, p, hu, hp, ?_⟩
    split at h
    · simp at h
    · split at h
      · split at h
        · simp at h
        · simp only [create_attendance.insertNew, Prod.mk.injEq] at h
          obtain ⟨hr, hs⟩ := h
          cases hr
          exact ⟨rfl, rfl, rfl, by rw [← hs]⟩
      · split at h
        · split at h
          · simp at h
          · simp only [create_attendance.insertNew, Prod.mk.injEq] at h
            obtain ⟨hr, hs⟩ := h
            cases hr
            exact ⟨rfl, rfl, rfl, by rw [← hs]⟩
        · simp at h
  next hu hp => simp at h

/-- C1 (amended): a create for a `(userId, parentId, parentType)` tuple that
already has a stored record fails with the duplicate-tuple error and leaves
the store unchanged — in particular exactly one record for the tuple remains
whenever exactly one existed — and of two sequential creates for the same
tuple at most the first succeeds: after a successful create, the same create
fails with the duplicate-tuple error. -/
theorem create_duplicate_conflict :
    (∀ (inp : AttendanceCreate) (sb : String) (now : Datetime) (s : Store)
        (u p : String),
      parseOid inp.user_id = some u → parseOid inp.parent_id = some p →
      (∃ r ∈ s.attendance, r.user_id = u ∧ r.parent_id = p ∧
        r.parent_type = inp.parent_type) →
      create_attendance_route inp sb now s = (.error .conflict, s)) ∧
    (∀ (inp : AttendanceCreate) (sb : String) (now : Datetime) (s s' : Store)
        (r : AttendanceDoc),
      create_attendance_route inp sb now s = (.ok r, s') →
      create_attendance_route inp sb now s' = (.error .conflict, s')) := by
  constructor
  · rintro inp sb now s u p hu hp ⟨r, hr, h1, h2, h3⟩
    have hsome : (s.attendance.find? (fun rr => rr.user_id == u &&
        rr.parent_id == p && rr.parent_type == inp.parent_type)).isSome :=
      List.find?_isSome.mpr ⟨r, hr, by simp [h1, h2, h3]⟩
    obtain ⟨x, hx⟩ := Option.isSome_iff_exists.mp hsome
    unfold create_attendance_route get_attendance_by_user_and_parent
    simp only [hu, hp, hx]
  · intro inp sb now s s' r h
    unfold create_attendance_route at h
    split at h
    · simp at h
    next hnone =>
      obtain ⟨u, p, hu, hp, hru, hrp, hrt, hs'⟩ :=
        create_attendance_ok_shape inp sb now s r s' h
      have hsome : (s'.attendance.find? (fun rr => rr.user_id == u &&
          rr.parent_id == p && rr.parent_type == inp.parent_type)).isSome := by
        refine List.find?_isSome.mpr ⟨r, ?_, by simp [hru, hrp, hrt]⟩
        rw [hs']
        exact List.mem_append_right _ (List.mem_singleton.mpr rfl)
      obtain ⟨x, hx⟩ := Option.isSome_iff_exists.mp hsome
      unfold create_attendance_route get_attendance_by_user_and_parent
      simp only [hu, hp, hx]

/-- First of two records for one `(userId, parentId, parentType)` tuple. -/
def dupDocA : AttendanceDoc :=
  { id := "00000000000000000000000a"
    user_id := "aaaaaaaaaaaaaaaaaaaaaaaa"
    parent_id := "bbbbbbbbbbbbbbbbbbbbbbbb"
    parent_type := "event"
    status := "present"
    notes := none
    question_id := none
    submitted_by := "cccccccccccccccccccccccc"
    organization_id := none
    created_at := ⟨2023, 1, 5⟩
    updated_at := ⟨2023, 1, 5⟩ }

/-- Second record for the same tuple as `dupDocA`, distinct `_id`. -/
def dupDocB : AttendanceDoc :=
  { dupDocA with id := "00000000000000000000000b", status := "late" }

/-- Store holding two records for one `(userId, parentId, parentType)`
tuple (with distinct `_id`s) — a state the bulk path can produce, since a
batch containing the same user twice passes the per-item duplicate check
against the store and no storage-level uniqueness constraint exists. -/
def dupPairStore : Store :=
  { attendance := [dupDocA, dupDocB]
    users := ["aaaaaaaaaaaaaaaaaaaaaaaa"]
    events := ["bbbbbbbbbbbbbbbbbbbbbbbb"]
    meetings := []
    nextId := 2 }

/-- Create payload for the tuple stored twice in `dupPairStore`. -/
def dupCreateInp : AttendanceCreate :=
  { user_id := "aaaaaaaaaaaaaaaaaaaaaaaa"
    parent_id := "bbbbbbbbbbbbbbbbbbbbbbbb"
    parent_type := "event"
    status := some "present"
    notes := none
    question_id := none }

/-- C1 counterexample: from a store that already has an attendance record
for the tuple (here two, a state reachable through the bulk path), the
duplicate create fails as claimed but the store is left with two records for
the tuple, not exactly one. -/
theorem create_duplicate_counterexample :
    (∃ r ∈ dupPairStore.attendance,
      r.user_id = "aaaaaaaaaaaaaaaaaaaaaaaa" ∧
      r.parent_id = "bbbbbbbbbbbbbbbbbbbbbbbb" ∧ r.parent_type = "event") ∧
    create_attendance_route dupCreateInp "cccccccccccccccccccccccc"
      ⟨2023, 1, 6⟩ dupPairStore = (.error .conflict, dupPairStore) ∧
    dupPairStore.attendance.countP (fun r =>
      r.user_id == "aaaaaaaaaaaaaaaaaaaaaaaa" &&
      r.parent_id == "bbbbbbbbbbbbbbbbbbbbbbbb" &&
      r.parent_type == "event") ≠ 1 := by
  refine ⟨?_, by decide, by decide⟩
  decide

/-- Store with the user and event of `dupCreateInp` but no attendance. -/
def emptyTupleStore : Store :=
  { attendance := []
    users := ["aaaaaaaaaaaaaaaaaaaaaaaa"]
    events := ["bbbbbbbbbbbbbbbbbbbbbbbb"]
    meetings := []
    nextId := 0 }

/-- Record that the first create out of `emptyTupleStore` inserts. -/
def dupCreatedDoc : AttendanceDoc :=
  { id := freshOid 0
    user_id := "aaaaaaaaaaaaaaaaaaaaaaaa"
    parent_id := "bbbbbbbbbbbbbbbbbbbbbbbb"
    parent_type := "event"
    status := "present"
    notes := none
    question_id := none
    submitted_by := "cccccccccccccccccccccccc"
    organization_id := none
    created_at := ⟨2023, 1, 6⟩
    updated_at := ⟨2023, 1, 6⟩ }

/-- Store state after the first successful create out of `emptyTupleStore`. -/
def afterFirstCreate : Store :=
  { emptyTupleStore with attendance := [dupCreatedDoc], nextId := 1 }

theorem create_duplicate_conflict_witness :
    create_attendance_route dupCreateInp "cccccccccccccccccccccccc"
      ⟨2023, 1, 6⟩ dupPairStore = (.error .conflict, dupPairStore) ∧
    create_attendance_route dupCreateInp "cccccccccccccccccccccccc"
      ⟨2023, 1, 6⟩ afterFirstCreate = (.error .conflict, afterFirstCreate) := by
  constructor
  · exact create_duplicate_conflict.1 dupCreateInp "cccccccccccccccccccccccc"
      ⟨2023, 1, 6⟩ dupPairStore "aaaaaaaaaaaaaaaaaaaaaaaa"
      "bbbbbbbbbbbbbbbbbbbbbbbb" (by decide) (by decide)
      ⟨dupDocA, by decide, by decide, by decide, by decide⟩
  · exact create_duplicate_conflict.2 dupCreateInp "cccccccccccccccccccccccc"
      ⟨2023, 1, 6⟩ emptyTupleStore afterFirstCreate dupCreatedDoc (by decide)

/-- C7 (amended): a `list` call whose `parentType` filter is a non-empty
string outside `{event, meeting}` fails with `InvalidArgument`; so does one
whose `status` filter is a non-empty string outside the status enum,
provided the `parentType` filter passes its own validation (which runs
first); and `list` never mutates the store.  An empty-string filter is falsy
in Python and is treated as an absent filter, not validated. -/
theorem list_invalid_filter_rejected :
    (∀ (user_id parent_id status : Option String)
        (sd ed : Option Datetime) (skip limit : Nat) (s : Store) (v : String),
      v ≠ "" → (v == "event" || v == "meeting") = false →
      ∃ m, list_attendance_route user_id parent_id (some v) status sd ed
        skip limit s = (.error (.invalidArgument m), s)) ∧
    (∀ (user_id parent_id parent_type : Option String)
        (sd ed : Option Datetime) (skip limit : Nat) (s : Store) (v : String),
      (truthy parent_type).any
        (fun pt => !(pt == "event" || pt == "meeting")) = false →
      v ≠ "" →
      (v == "present" || v == "absent" || v == "late" || v == "excused")
        = false →
      ∃ m, list_attendance_route user_id parent_id parent_type (some v) sd ed
        skip limit s = (.error (.invalidArgument m), s)) ∧
    (∀ (user_id parent_id parent_type status : Option String)
        (sd ed : Option Datetime) (skip limit : Nat) (s : Store),
      (list_attendance_route user_id parent_id parent_type status sd ed
        skip limit s).2 = s) := by
  refine ⟨?_, ?_, ?_⟩
  · intro user_id parent_id status sd ed skip limit s v hne hbad
    have hv : (v == "") = false := by
      cases hbe : v == "" with
      | true => exact absurd (by simpa using hbe) hne
      | false => rfl
    have ht : truthy (some v) = some v := by simp [truthy, hv]
    have hcond : (truthy (some v)).any
        (fun pt => !(pt == "event" || pt == "meeting")) = true := by
      rw [ht]; show (!(v == "event" || v == "meeting")) = true
      rw [hbad]; rfl
    refine ⟨"Invalid parent_type. Must be event or meeting", ?_⟩
    unfold list_attendance_route
    rw [hcond]
    simp
  · intro user_id parent_id parent_type sd ed skip limit s v hptok hne hbad
    have hv : (v == "") = false := by
      cases hbe : v == "" with
      | true => exact absurd (by simpa using hbe) hne
      | false => rfl
    have ht : truthy (some v) = some v := by simp [truthy, hv]
    have hcond : (truthy (some v)).any
        (fun st => !(st == "present" || st == "absent" || st == "late" ||
          st == "excused")) = true := by
      rw [ht]
      show (!(v == "present" || v == "absent" || v == "late" ||
        v == "excused")) = true
      rw [hbad]; rfl
    refine ⟨"Invalid status. Must be one of: present, absent, late, excused",
      ?_⟩
    unfold list_attendance_route
    rw [hptok, hcond]
    simp
  · intro user_id parent_id parent_type status sd ed skip limit s
    unfold list_attendance_route
    split
    · rfl
    · split <;> rfl

/-- Store with one event attendance record for the C7 counterexample. -/
def listExampleStore : Store :=
  { attendance := [dupDocA]
    users := ["aaaaaaaaaaaaaaaaaaaaaaaa"]
    events := ["bbbbbbbbbbbbbbbbbbbbbbbb"]
    meetings := []
    nextId := 1 }

/-- C7 counterexample: the empty string is a `parentType` filter value
outside `{event, meeting}`, yet the list operation does not fail — it
silently drops the filter (Python truthiness) and returns the stored
records unfiltered. -/
theorem list_invalid_filter_counterexample :
    ("" == "event" || "" == "meeting") = false ∧
    (list_attendance_route none none (some "") none none none 0 100
      listExampleStore).1 = .ok [dupDocA] := by
  constructor
  · decide
  · decide

theorem list_invalid_filter_rejected_witness :
    ("x" ≠ "") ∧ (("x" == "event" || "x" == "meeting") = false) ∧
    (∃ m, list_attendance_route none none (some "x") none none none 0 100
      listExampleStore = (.error (.invalidArgument m), listExampleStore)) :=
  ⟨by decide, by decide,
   list_invalid_filter_rejected.1 none none none none none 0 100
     listExampleStore "x" (by decide) (by decide)⟩

theorem countP_status_sum_le (l : List AttendanceDoc) :
    l.countP (fun r => r.status == "present") +
      l.countP (fun r => r.status == "absent") +
      l.countP (fun r => r.status == "late") +
      l.countP (fun r => r.status == "excused") ≤ l.length := by
  induction l with
  | nil => simp
  | cons r t ih =>
      simp only [List.countP_cons, List.length_cons]
      by_cases h1 : r.status = "present"
      · simp only [h1]; simp; omega
      · by_cases h2 : r.status = "absent"
        · simp only [h2]; simp; omega
        · by_cases h3 : r.status = "late"
          · simp only [h3]; simp; omega
          · by_cases h4 : r.status = "excused"
            · simp only [h4]; simp; omega
            · simp only [beq_iff_eq, if_neg h1, if_neg h2, if_neg h3,
                if_neg h4]
              omega

theorem round2_zero : round2 0 = 0 := by
  have h0 : roundHalfEven 0 = 0 := by
    unfold roundHalfEven
    norm_num
  unfold round2
  norm_num [h0]

theorem statsOf_spec (q : AttendanceDoc → Bool) (s : Store) :
    (statsOf q s).present + (statsOf q s).absent + (statsOf q s).late +
      (statsOf q s).excused ≤ (statsOf q s).total ∧
    (0 < (statsOf q s).total →
      (statsOf q s).percentage =
        round2 (((statsOf q s).present : ℚ) / ((statsOf q s).total : ℚ)
          * 100)) ∧
    ((statsOf q s).total = 0 → (statsOf q s).percentage = 0) := by
  unfold statsOf
  simp only [List.countP_eq_length_filter]
  refine ⟨?_, ?_, ?_⟩
  · have := countP_status_sum_le (s.attendance.filter q)
    simpa [List.countP_eq_length_filter] using this
  · intro h
    rw [if_pos h]
  · intro h
    rw [if_neg (by omega)]
    exact round2_zero

/-- C4 (confirmed): for every filter combination the stats counts satisfy
`present + absent + late + excused ≤ total` (equality can fail only for
documents whose stored status lies outside the enum, which the spec's
inequality allows for), the percentage is `round(present/total*100, 2)`
when `total > 0` and `0.0` when `total = 0` — no division by zero. -/
theorem get_attendance_stats_spec (parent_id parent_type : Option String)
    (sd ed : Option Datetime) (s : Store) :
    (get_attendance_stats parent_id parent_type sd ed s).present +
      (get_attendance_stats parent_id parent_type sd ed s).absent +
      (get_attendance_stats parent_id parent_type sd ed s).late +
      (get_attendance_stats parent_id parent_type sd ed s).excused ≤
      (get_attendance_stats parent_id parent_type sd ed s).total ∧
    (0 < (get_attendance_stats parent_id parent_type sd ed s).total →
      (get_attendance_stats parent_id parent_type sd ed s).percentage =
        round2
          (((get_attendance_stats parent_id parent_type sd ed s).present : ℚ) /
            ((get_attendance_stats parent_id parent_type sd ed s).total : ℚ)
            * 100)) ∧
    ((get_attendance_stats parent_id parent_type sd ed s).total = 0 →
      (get_attendance_stats parent_id parent_type sd ed s).percentage = 0) := by
  unfold get_attendance_stats
  split
  · split
    · exact ⟨by simp, fun h => by simp at h, fun _ => by simp⟩
    · exact statsOf_spec _ s
  · exact statsOf_spec _ s

/-- Store mirroring the spec scenario: five records for one parent, three
present, one absent, one late. -/
def statsExampleStore : Store :=
  { attendance := [
      { dupDocA with
          id := "000000000000000000000001"
          user_id := "aaaaaaaaaaaaaaaaaaaaaaa1" },
      { dupDocA with
          id := "000000000000000000000002"
          user_id := "aaaaaaaaaaaaaaaaaaaaaaa2" },
      { dupDocA with
          id := "000000000000000000000003"
          user_id := "aaaaaaaaaaaaaaaaaaaaaaa3" },
      { dupDocA with
          id := "000000000000000000000004"
          user_id := "aaaaaaaaaaaaaaaaaaaaaaa4"
          status := "absent" },
      { dupDocA with
          id := "000000000000000000000005"
          user_id := "aaaaaaaaaaaaaaaaaaaaaaa5"
          status := "late" }]
    users := []
    events := ["bbbbbbbbbbbbbbbbbbbbbbbb"]
    meetings := []
    nextId := 6 }

theorem get_attendance_stats_spec_witness :
    0 < (get_attendance_stats none none none none statsExampleStore).total ∧
    (get_attendance_stats none none none none statsExampleStore).percentage =
      round2
        (((get_attendance_stats none none none none
            statsExampleStore).present : ℚ) /
          ((get_attendance_stats none none none none
            statsExampleStore).total : ℚ) * 100) :=
  ⟨by decide,
   (get_attendance_stats_spec none none none none statsExampleStore).2.1
     (by decide)⟩

theorem strLeB_go_total : ∀ xs ys : List Char,
    strLeB.go xs ys = true ∨ strLeB.go ys xs = true := by
  intro xs
  induction xs with
  | nil => intro ys; left; rfl
  | cons x xs ih =>
      intro ys
      cases ys with
      | nil => right; rfl
      | cons y ys =>
          by_cases hxy : x = y
          · subst hxy
            rcases ih ys with h | h
            · left; simpa [strLeB.go] using h
            · right; simpa [strLeB.go] using h
          · rcases lt_trichotomy x y with h | h | h
            · left; simp [strLeB.go, hxy, h]
            · exact absurd h hxy
            · right; simp [strLeB.go, Ne.symm hxy, h]

theorem strLeB_go_trans : ∀ xs ys zs : List Char,
    strLeB.go xs ys = true → strLeB.go ys zs = true →
    strLeB.go xs zs = true := by
  intro xs
  induction xs with
  | nil => intro ys zs _ _; rfl
  | cons x xs ih =>
      intro ys zs h1 h2
      cases ys with
      | nil => simp [strLeB.go] at h1
      | cons y ys =>
          cases zs with
          | nil => simp [strLeB.go] at h2
          | cons z zs =>
              by_cases hxy : x = y
              · subst hxy
                by_cases hyz : x = z
                · subst hyz
                  simp only [strLeB.go, if_pos rfl] at h1 h2 ⊢
                  exact ih ys zs h1 h2
                · simp only [strLeB.go, if_pos rfl] at h1
                  simpa [strLeB.go, hyz] using h2
              · by_cases hyz : y = z
                · subst hyz
                  simp only [strLeB.go, if_pos rfl] at h2
                  simpa [strLeB.go, hxy] using h1
                · have hlt1 : x < y := by simpa [strLeB.go, hxy] using h1
                  have hlt2 : y < z := by simpa [strLeB.go, hyz] using h2
                  have hlt : x < z := lt_trans hlt1 hlt2
                  simp [strLeB.go, ne_of_lt hlt, hlt]

theorem strLeB_go_lt : ∀ xs ys : List Char,
    strLeB.go xs ys = true → xs ≠ ys → List.lt xs ys := by
  intro xs
  induction xs with
  | nil =>
      intro ys _ hne
      cases ys with
      | nil => exact absurd rfl hne
      | cons y ys => exact List.lt.nil y ys
  | cons x xs ih =>
      intro ys h hne
      cases ys with
      | nil => simp [strLeB.go] at h
      | cons y ys =>
          by_cases hxy : x = y
          · subst hxy
            have h' : strLeB.go xs ys = true := by
              simpa [strLeB.go] using h
            have hne' : xs ≠ ys := fun hh => hne (by rw [hh])
            exact List.lt.tail (lt_irrefl x) (lt_irrefl x) (ih ys h' hne')
          · have hlt : x < y := by simpa [strLeB.go, hxy] using h
            exact List.lt.head _ _ hlt

theorem get_attendance_summary_ok_shape (ptf : Option String)
    (sd ed : Option Datetime) (period : String) (s : Store)
    (items : List AttendanceSummaryItem)
    (h : get_attendance_summary ptf sd ed period s = .ok items) :
    items = (List.insertionSort (fun a b => strLeB a b = true)
        (((s.attendance.filter (summaryQuery ptf sd ed)).map
          (fun r => dateKey period r.created_at)).dedup)).map
      (summaryItem (s.attendance.filter (summaryQuery ptf sd ed)) period) := by
  unfold get_attendance_summary at h
  split at h
  · simp at h
  · injection h with h'
    exact h'.symm

theorem summaryItem_total (docs : List AttendanceDoc) (period k : String) :
    (summaryItem docs period k).total =
      (docs.map (fun r => dateKey period r.created_at)).count k := by
  unfold summaryItem
  simp only [← List.countP_eq_length_filter, List.count, List.countP_map]
  rfl

/-- C5 (confirmed): the buckets returned by `computeSummary` partition the
filtered record set — the bucket totals sum to the number of documents
matching the filter and date range, and the bucket keys are pairwise
distinct, so no document is counted in two buckets (each document falls in
the single bucket of its own `dateKey`). -/
theorem get_attendance_summary_partition (ptf : Option String)
    (sd ed : Option Datetime) (period : String) (s : Store)
    (items : List AttendanceSummaryItem)
    (h : get_attendance_summary ptf sd ed period s = .ok items) :
    (items.map (fun i => i.total)).sum =
      (s.attendance.filter (summaryQuery ptf sd ed)).length ∧
    (items.map (fun i => i.period)).Nodup := by
  have hit := get_attendance_summary_ok_shape ptf sd ed period s items h
  subst hit
  set docs := s.attendance.filter (summaryQuery ptf sd ed) with hdocs
  set kl := docs.map (fun r => dateKey period r.created_at) with hkl
  have hperm : List.Perm
      (List.insertionSort (fun a b => strLeB a b = true) kl.dedup)
      kl.dedup := List.perm_insertionSort _ _
  constructor
  · have h1 : ((List.insertionSort (fun a b => strLeB a b = true)
        kl.dedup).map (summaryItem docs period)).map (fun i => i.total) =
        (List.insertionSort (fun a b => strLeB a b = true) kl.dedup).map
          (fun k => kl.count k) := by
      rw [List.map_map]
      exact List.map_congr_left (fun k _ => summaryItem_total docs period k)
    rw [h1]
    have h2 := List.Perm.sum_eq (List.Perm.map (fun k => kl.count k) hperm)
    rw [h2, List.sum_map_count_dedup_eq_length]
    simp [hkl]
  · have h1 : ((List.insertionSort (fun a b => strLeB a b = true)
        kl.dedup).map (summaryItem docs period)).map (fun i => i.period) =
        List.insertionSort (fun a b => strLeB a b = true) kl.dedup := by
      rw [List.map_map]
      have : ∀ k ∈ List.insertionSort (fun a b => strLeB a b = true)
          kl.dedup, ((fun i => i.period) ∘ summaryItem docs period) k = k :=
        fun k _ => rfl
      rw [List.map_congr_left this, List.map_id']
    rw [h1]
    exact hperm.nodup_iff.mpr (List.nodup_dedup kl)

/-- Store with the two dated records of the spec's monthly scenario. -/
def summaryExampleStore : Store :=
  { attendance := [
      { dupDocA with
          id := "000000000000000000000011"
          user_id := "aaaaaaaaaaaaaaaaaaaaaaa1"
          created_at := ⟨2023, 1, 5⟩ },
      { dupDocA with
          id := "000000000000000000000012"
          user_id := "aaaaaaaaaaaaaaaaaaaaaaa2"
          created_at := ⟨2023, 2, 10⟩ }]
    users := []
    events := ["bbbbbbbbbbbbbbbbbbbbbbbb"]
    meetings := []
    nextId := 19 }

theorem get_attendance_summary_partition_witness :
    ∃ items, get_attendance_summary none none none "monthly"
        summaryExampleStore = .ok items ∧
      (items.map (fun i => i.total)).sum =
        (summaryExampleStore.attendance.filter
          (summaryQuery none none none)).length ∧
      (items.map (fun i => i.period)).Nodup := by
  rcases hres : get_attendance_summary none none none "monthly"
      summaryExampleStore with e | items
  · have hok : (get_attendance_summary none none none "monthly"
        summaryExampleStore).isOk = true := by decide
    rw [hres] at hok
    simp [Except.isOk, Except.toBool] at hok
  · exact ⟨items, rfl,
      (get_attendance_summary_partition none none none "monthly"
        summaryExampleStore items hres).1,
      (get_attendance_summary_partition none none none "monthly"
        summaryExampleStore items hres).2⟩

theorem summary_map_period (docs : List AttendanceDoc) (period : String)
    (keys : List String) :
    (keys.map (summaryItem docs period)).map (fun i => i.period) = keys := by
  rw [List.map_map]
  have h : ∀ k ∈ keys, ((fun i => i.period) ∘ summaryItem docs period) k = k :=
    fun k _ => rfl
  rw [List.map_congr_left h, List.map_id']

/-- C6 (confirmed): the summary list is strictly ascending in the bucket-key
string order (so there is at most one entry per bucket), every returned
bucket is non-empty, the bucket keys are exactly the `$dateToString` keys of
the filtered documents (`%Y-%m-%d` daily, `%Y-%U` weekly, `%Y-%m` monthly —
see `dateKey`), and the spec's concrete scenario holds: records dated
2023-01-05 and 2023-02-10 under `monthly` yield exactly the buckets
`"2023-01"` and `"2023-02"` with one record each. -/
theorem get_attendance_summary_buckets (ptf : Option String)
    (sd ed : Option Datetime) (period : String) (s : Store)
    (items : List AttendanceSummaryItem)
    (h : get_attendance_summary ptf sd ed period s = .ok items) :
    List.Sorted (fun a b : String => List.lt a.data b.data)
      (items.map (fun i => i.period)) ∧
    (∀ i ∈ items, 0 < i.total) ∧
    (∀ k, k ∈ items.map (fun i => i.period) ↔
      ∃ r ∈ s.attendance.filter (summaryQuery ptf sd ed),
        dateKey period r.created_at = k) ∧
    (get_attendance_summary none none none "monthly"
        summaryExampleStore).toOption.map
      (fun l => l.map (fun i => (i.period, i.total))) =
      some [("2023-01", 1), ("2023-02", 1)] := by
  have hit := get_attendance_summary_ok_shape ptf sd ed period s items h
  subst hit
  set docs := s.attendance.filter (summaryQuery ptf sd ed) with hdocs
  set kl := docs.map (fun r => dateKey period r.created_at) with hkl
  have hperm : List.Perm
      (List.insertionSort (fun a b => strLeB a b = true) kl.dedup)
      kl.dedup := List.perm_insertionSort _ _
  haveI hTot : IsTotal String (fun a b : String => strLeB a b = true) :=
    ⟨fun a b => strLeB_go_total a.data b.data⟩
  haveI hTrans : IsTrans String (fun a b : String => strLeB a b = true) :=
    ⟨fun a b c h1 h2 => strLeB_go_trans a.data b.data c.data h1 h2⟩
  have hs : List.Sorted (fun a b : String => strLeB a b = true)
      (List.insertionSort (fun a b => strLeB a b = true) kl.dedup) :=
    List.sorted_insertionSort _ _
  have hnd : (List.insertionSort (fun a b => strLeB a b = true)
      kl.dedup).Nodup := hperm.nodup_iff.mpr (List.nodup_dedup kl)
  refine ⟨?_, ?_, ?_, by decide⟩
  · rw [summary_map_period]
    exact hs.imp₂ (fun a b hle hne =>
      strLeB_go_lt a.data b.data hle
        (fun hd => hne (congrArg String.mk hd))) hnd
  · intro i hi
    obtain ⟨k, hk, rfl⟩ := List.mem_map.mp hi
    rw [summaryItem_total]
    exact List.count_pos_iff.mpr
      (List.mem_dedup.mp (hperm.mem_iff.mp hk))
  · intro k
    rw [summary_map_period]
    exact (hperm.mem_iff).trans (List.mem_dedup.trans List.mem_map)

theorem get_attendance_summary_buckets_witness :
    ∃ items, get_attendance_summary none none none "monthly"
        summaryExampleStore = .ok items ∧
      List.Sorted (fun a b : String => List.lt a.data b.data)
        (items.map (fun i => i.period)) ∧
      (∀ i ∈ items, 0 < i.total) := by
  rcases hres : get_attendance_summary none none none "monthly"
      summaryExampleStore with e | items
  · have hok : (get_attendance_summary none none none "monthly"
        summaryExampleStore).isOk = true := by decide
    rw [hres] at hok
    simp [Except.isOk, Except.toBool] at hok
  · exact ⟨items, rfl,
      (get_attendance_summary_buckets none none none "monthly"
        summaryExampleStore items hres).1,
      (get_attendance_summary_buckets none none none "monthly"
        summaryExampleStore items hres).2.1⟩

/-- Specification-side definition of `getNotAttended`, written from the
spec's words for comparison with the implementation: exactly the expected
ids for which no `present` record exists for `(id, parentId, parentType)`,
where an id string denotes the document whose stored `ObjectId` it parses
to. -/
def not_attended_spec (parent_id parent_type : String)
    (expected_user_ids : List String) (s : Store) : List String :=
  expected_user_ids.filter (fun uid => !(s.attendance.any (fun r =>
    parseOid uid == some r.user_id && parseOid parent_id == some r.parent_id &&
    r.parent_type == parent_type && r.status == "present")))

/-- C3 (amended): when every expected id is either in canonical (lowercase)
`ObjectId` string form or not a valid `ObjectId` string at all,
`get_not_attended_users` returns exactly the expected ids without a
`present` record for `(id, parentId, parentType)`. -/
theorem get_not_attended_canonical (parent_id parent_type : String)
    (expected : List String) (s : Store)
    (hcanon : ∀ uid ∈ expected,
      parseOid uid = none ∨ parseOid uid = some uid) :
    get_not_attended_users parent_id parent_type expected s =
      not_attended_spec parent_id parent_type expected s := by
  cases expected with
  | nil => rfl
  | cons e es =>
      unfold get_not_attended_users not_attended_spec
      simp only [List.isEmpty_cons, Bool.false_eq_true, if_false]
      cases hp : parseOid parent_id with
      | none =>
          symm
          apply List.filter_eq_self.mpr
          intro uid _
          simp [hp]
      | some p =>
          apply List.filter_congr
          intro uid huid
          rcases hcanon uid huid with hnone | hsome
          · congr 1
            apply Bool.eq_iff_iff.mpr
            constructor
            · intro hc
              simp only [List.contains, List.elem_eq_mem, decide_eq_true_eq,
                List.mem_map, List.mem_filter] at hc
              obtain ⟨r, ⟨hrmem, hcode⟩, hruid⟩ := hc
              simp only [Bool.and_eq_true] at hcode
              obtain ⟨⟨⟨_, _⟩, hin⟩, _⟩ := hcode
              rw [hruid] at hin
              simp only [List.contains, List.elem_eq_mem, decide_eq_true_eq,
                List.mem_filterMap] at hin
              obtain ⟨v, hv, hpv⟩ := hin
              rcases hcanon v hv with hvn | hvs
              · rw [hvn] at hpv; cases hpv
              · rw [hvs] at hpv
                cases hpv
                rw [hnone] at hvs
                cases hvs
            · intro hc
              simp only [List.any_eq_true, Bool.and_eq_true] at hc
              obtain ⟨r, hrmem, ⟨⟨⟨hbu, _⟩, _⟩, _⟩⟩ := hc
              rw [hnone] at hbu
              cases hbu
          · congr 1
            apply Bool.eq_iff_iff.mpr
            constructor
            · intro hc
              simp only [List.contains, List.elem_eq_mem, decide_eq_true_eq,
                List.mem_map, List.mem_filter] at hc
              obtain ⟨r, ⟨hrmem, hcode⟩, hruid⟩ := hc
              simp only [Bool.and_eq_true, beq_iff_eq] at hcode
              obtain ⟨⟨⟨hrp, hrt⟩, hin⟩, hst⟩ := hcode
              simp only [List.any_eq_true]
              refine ⟨r, hrmem, ?_⟩
              simp [hsome, hruid, hp, hrp, hrt, hst]
            · intro hc
              simp only [List.any_eq_true, Bool.and_eq_true, beq_iff_eq] at hc
              obtain ⟨r, hrmem, ⟨⟨⟨hbu, hbp⟩, hrt⟩, hst⟩⟩ := hc
              rw [hsome] at hbu
              simp only [Option.some.injEq] at hbu hbp
              simp only [List.contains, List.elem_eq_mem, decide_eq_true_eq,
                List.mem_map, List.mem_filter]
              refine ⟨r, ⟨hrmem, ?_⟩, hbu.symm⟩
              simp only [Bool.and_eq_true, beq_iff_eq]
              refine ⟨⟨⟨hbp.symm, hrt⟩, ?_⟩, hst⟩
              simp only [List.contains, List.elem_eq_mem, decide_eq_true_eq,
                List.mem_filterMap]
              exact ⟨uid, huid, by rw [hsome, hbu]⟩

/-- C3 counterexample: the store holds a `present` record for the user whose
`ObjectId` the uppercase-spelled id `"AAAAAAAAAAAAAAAAAAAAAAAA"` denotes
(`bson` accepts either case and stores the same 12 bytes), yet
`get_not_attended_users` still reports that id as not attended, because the
attended set holds canonical lowercase strings and the final comparison is
exact string equality against the caller's spelling. -/
theorem get_not_attended_counterexample :
    get_not_attended_users "bbbbbbbbbbbbbbbbbbbbbbbb" "event"
      ["AAAAAAAAAAAAAAAAAAAAAAAA"] listExampleStore =
      ["AAAAAAAAAAAAAAAAAAAAAAAA"] ∧
    not_attended_spec "bbbbbbbbbbbbbbbbbbbbbbbb" "event"
      ["AAAAAAAAAAAAAAAAAAAAAAAA"] listExampleStore = [] ∧
    (∃ r ∈ listExampleStore.attendance,
      parseOid "AAAAAAAAAAAAAAAAAAAAAAAA" = some r.user_id ∧
      parseOid "bbbbbbbbbbbbbbbbbbbbbbbb" = some r.parent_id ∧
      r.parent_type = "event" ∧ r.status = "present") := by
  refine ⟨by decide, by decide, ?_⟩
  decide

theorem get_not_attended_canonical_witness :
    (∀ uid ∈ (["aaaaaaaaaaaaaaaaaaaaaaaa", "dddddddddddddddddddddddd",
        "zzz"] : List String),
      parseOid uid = none ∨ parseOid uid = some uid) ∧
    get_not_attended_users "bbbbbbbbbbbbbbbbbbbbbbbb" "event"
      ["aaaaaaaaaaaaaaaaaaaaaaaa", "dddddddddddddddddddddddd", "zzz"]
      listExampleStore =
    not_attended_spec "bbbbbbbbbbbbbbbbbbbbbbbb" "event"
      ["aaaaaaaaaaaaaaaaaaaaaaaa", "dddddddddddddddddddddddd", "zzz"]
      listExampleStore :=
  ⟨by decide,
   get_not_attended_canonical "bbbbbbbbbbbbbbbbbbbbbbbb" "event"
     ["aaaaaaaaaaaaaaaaaaaaaaaa", "dddddddddddddddddddddddd", "zzz"]
     listExampleStore (by decide)⟩

theorem countP_not_add {α : Type} (p : α → Bool) (l : List α) :
    l.countP (fun a => !(p a)) + l.countP p = l.length := by
  induction l with
  | nil => rfl
  | cons a t ih =>
      simp only [List.countP_cons, List.length_cons]
      cases h : p a <;> simp [h] <;> omega

theorem insertMany_spec (docs : List AttendanceDoc) :
    ∀ s : Store, (insertMany docs s).1.length = docs.length ∧
      ((insertMany docs s).2).attendance =
        s.attendance ++ (insertMany docs s).1 := by
  induction docs with
  | nil => intro s; exact ⟨rfl, by simp [insertMany]⟩
  | cons d t ih =>
      intro s
      obtain ⟨ihlen, ihatt⟩ :=
        ih { s with
          attendance := s.attendance ++ [{ d with id := freshOid s.nextId }]
          nextId := s.nextId + 1 }
      constructor
      · simp only [insertMany, List.length_cons]
        omega
      · simp only [insertMany]
        rw [ihatt]
        simp

/-- The per-item duplicate check the bulk route performs against the store
before handing the batch to the service. -/
def bulkDup (bulk : BulkAttendanceCreate) (s : Store)
    (it : BulkAttendanceItem) : Bool :=
  (get_attendance_by_user_and_parent it.user_id bulk.parent_id
    bulk.parent_type s).isSome

/-- C2 (amended): for a bulk request with `N` well-formed items of which `M`
are duplicates of pre-existing `(userId, parentId, parentType)` records,
when `M < N` the call succeeds, inserts exactly `N − M` documents, and
returns exactly the inserted documents; the `M` duplicates are skipped, not
treated as failures.  No itemized per-item outcome is part of the result,
and an all-duplicates batch is rejected instead (see the counterexample). -/
theorem bulk_create_dedup (bulk : BulkAttendanceCreate) (sb : String)
    (now : Datetime) (s : Store)
    (hpt : bulk.parent_type = "event" ∨ bulk.parent_type = "meeting")
    (hpid : oidIsValid bulk.parent_id = true)
    (hids : ∀ it ∈ bulk.items, oidIsValid it.user_id = true)
    (hM : bulk.items.countP (bulkDup bulk s) < bulk.items.length) :
    ∃ recs s', bulk_create_attendance_route bulk sb now s = (.ok recs, s') ∧
      recs.length =
        bulk.items.length - bulk.items.countP (bulkDup bulk s) ∧
      s'.attendance = s.attendance ++ recs := by
  have hcond : (!(bulk.parent_type == "event" ||
      bulk.parent_type == "meeting")) = false := by
    rcases hpt with h | h <;> simp [h]
  set f : BulkAttendanceItem → Option PreparedAttendance := fun it =>
    match get_attendance_by_user_and_parent it.user_id bulk.parent_id
        bulk.parent_type s with
    | some _ => none
    | none =>
        some ({ user_id := it.user_id
                parent_id := bulk.parent_id
                parent_type := bulk.parent_type
                status := it.status
                notes := it.notes
                question_id := it.question_id
                submitted_by := sb
                organization_id := bulk.organization_id } :
          PreparedAttendance) with hf
  have hfs : ∀ it, (f it).isSome = !(bulkDup bulk s it) := by
    intro it
    rw [hf]
    simp only
    unfold bulkDup
    rcases h : get_attendance_by_user_and_parent it.user_id bulk.parent_id
        bulk.parent_type s with _ | x <;> rfl
  have hplen : (bulk.items.filterMap f).length =
      bulk.items.length - bulk.items.countP (bulkDup bulk s) := by
    rw [List.length_filterMap_eq_countP]
    have hc : bulk.items.countP (fun it => (f it).isSome) =
        bulk.items.countP (fun it => !(bulkDup bulk s it)) := by
      rw [List.countP_eq_length_filter, List.countP_eq_length_filter,
        List.filter_congr (fun it _ => hfs it)]
    rw [hc]
    have := countP_not_add (bulkDup bulk s) bulk.items
    omega
  have hpne : (bulk.items.filterMap f).isEmpty = false := by
    rw [List.isEmpty_eq_false]
    intro hnil
    rw [hnil] at hplen
    simp at hplen
    omega
  have hvalid : ∀ d ∈ bulk.items.filterMap f,
      oidIsValid d.user_id = true ∧ d.parent_id = bulk.parent_id := by
    intro d hd
    obtain ⟨it, hit, hfit⟩ := List.mem_filterMap.mp hd
    rw [hf] at hfit
    simp only at hfit
    rcases hchk : get_attendance_by_user_and_parent it.user_id bulk.parent_id
        bulk.parent_type s with _ | x
    · rw [hchk] at hfit
      simp only [Option.some.injEq] at hfit
      rw [← hfit]
      exact ⟨hids it hit, rfl⟩
    · rw [hchk] at hfit
      cases hfit
  set g : PreparedAttendance → Option AttendanceDoc := fun d =>
    match parseOid d.user_id, parseOid d.parent_id with
    | some u, some p =>
        some ({ id := ""
                user_id := u
                parent_id := p
                parent_type := d.parent_type
                status := d.status
                notes := d.notes
                question_id := d.question_id
                submitted_by := d.submitted_by
                organization_id := some d.organization_id
                created_at := now
                updated_at := now } : AttendanceDoc)
    | _, _ => none with hg
  have hgs : ∀ d ∈ bulk.items.filterMap f, (g d).isSome = true := by
    intro d hd
    obtain ⟨hu, hp⟩ := hvalid d hd
    rw [hg]
    simp only [parseOid, hu, hp, hpid, if_pos]
    rfl
  have hdlen : ((bulk.items.filterMap f).filterMap g).length =
      (bulk.items.filterMap f).length := by
    rw [List.length_filterMap_eq_countP]
    exact List.countP_eq_length.mpr hgs
  have hdne : ((bulk.items.filterMap f).filterMap g).isEmpty = false := by
    rw [List.isEmpty_eq_false]
    intro hnil
    rw [hnil] at hdlen
    simp at hdlen
    rw [← hdlen] at hplen
    omega
  obtain ⟨hreclen, hrecatt⟩ :=
    insertMany_spec ((bulk.items.filterMap f).filterMap g) s
  refine ⟨(insertMany ((bulk.items.filterMap f).filterMap g) s).1,
    (insertMany ((bulk.items.filterMap f).filterMap g) s).2, ?_, ?_, hrecatt⟩
  · unfold bulk_create_attendance_route bulk_create_attendance
    rw [hcond]
    simp only [Bool.false_eq_true, if_false, ← hf, ← hg, hpne, hdne]
  · rw [hreclen, hdlen, hplen]

/-- Bulk request whose single item duplicates the record already stored in
`listExampleStore`. -/
def allDupBulk : BulkAttendanceCreate :=
  { items := [{ user_id := "aaaaaaaaaaaaaaaaaaaaaaaa"
                status := "present"
                notes := none
                question_id := none }]
    parent_id := "bbbbbbbbbbbbbbbbbbbbbbbb"
    parent_type := "event"
    organization_id := "org1" }

/-- C2 counterexample: a batch of `N = 1` items of which `M = 1` duplicate a
pre-existing record.  The claim requires `N − M = 0` insertions with the
duplicate reported as skipped in an itemized outcome; the code instead
rejects the whole call with an error, and no itemized outcome exists in the
result type. -/
theorem bulk_all_duplicates_counterexample :
    allDupBulk.items.countP (bulkDup allDupBulk listExampleStore) =
      allDupBulk.items.length ∧
    bulk_create_attendance_route allDupBulk "cccccccccccccccccccccccc"
      ⟨2023, 3, 1⟩ listExampleStore =
      (.error (.invalidArgument "No valid attendance records to create"),
        listExampleStore) := by
  constructor
  · decide
  · decide

/-- Bulk request with one duplicate item and one fresh item. -/
def mixedBulk : BulkAttendanceCreate :=
  { items := [
      { user_id := "aaaaaaaaaaaaaaaaaaaaaaaa"
        status := "present"
        notes := none
        question_id := none },
      { user_id := "eeeeeeeeeeeeeeeeeeeeeeee"
        status := "late"
        notes := none
        question_id := none }]
    parent_id := "bbbbbbbbbbbbbbbbbbbbbbbb"
    parent_type := "event"
    organization_id := "org1" }

theorem bulk_create_dedup_witness :
    (∀ it ∈ mixedBulk.items, oidIsValid it.user_id = true) ∧
    mixedBulk.items.countP (bulkDup mixedBulk listExampleStore) <
      mixedBulk.items.length ∧
    ∃ recs s', bulk_create_attendance_route mixedBulk
        "cccccccccccccccccccccccc" ⟨2023, 3, 1⟩ listExampleStore =
        (.ok recs, s') ∧
      recs.length = mixedBulk.items.length -
        mixedBulk.items.countP (bulkDup mixedBulk listExampleStore) ∧
      s'.attendance = listExampleStore.attendance ++ recs :=
  ⟨by decide, by decide,
   bulk_create_dedup mixedBulk "cccccccccccccccccccccccc" ⟨2023, 3, 1⟩
     listExampleStore (Or.inl rfl) (by decide) (by decide) (by decide)⟩
